import Mathlib

/-!
Shallow embedding of the IvyLine essay-assistant backend.

The embedding covers:
* `EmbeddingService` (text preprocessing, cosine similarity, model
  initialization guard) from the TypeScript service;
* the SQL function `match_essays` and `SupabaseService.searchSimilarEssays`;
* `WritingSpecialistAgent` (tool dispatch and the one-round-trip
  orchestrator loop `processMessage`).

TypeScript numbers are modelled as `ℚ` (the concrete values appearing in the
code are exact in both `ℚ` and IEEE doubles); `Math.sqrt` and the pgvector
cosine-distance operator are external library functions and are passed
as explicit function parameters.  JavaScript `undefined` is modelled with
`Option`; a thrown exception is modelled with `Except.error`.
-/

namespace IvyLine

/-!
Section: `EmbeddingService.preprocessText`.

Source:
```
return text
  .trim()
  .replace(/\s+/g, ' ')
  .replace(/[^\w\s.,!?;:()\-'"]/g, '')
  .toLowerCase();
```
Strings are modelled as lists of characters.
-/

/-- JavaScript whitespace class `\s` (restricted to its ASCII members, which
are the only ones reachable from the characters used in this development). -/
def isSpaceJS (c : Char) : Bool :=
  c == ' ' || c == '\t' || c == '\n' || c == '\r' || c == '\x0b' || c == '\x0c'

/-- JavaScript word-character class `\w`, i.e. `[A-Za-z0-9_]`. -/
def isWordJS (c : Char) : Bool :=
  (65 ≤ c.toNat && c.toNat ≤ 90) || (97 ≤ c.toNat && c.toNat ≤ 122) ||
    (48 ≤ c.toNat && c.toNat ≤ 57) || c == '_'

/-- The punctuation kept by the regex `[^\w\s.,!?;:()\-'"]`. -/
def isKeptPunct (c : Char) : Bool :=
  c == '.' || c == ',' || c == '!' || c == '?' || c == ';' || c == ':' ||
    c == '(' || c == ')' || c == '-' || c == '\'' || c == '"'

/-- A character that survives the character-dropping replace. -/
def isKept (c : Char) : Bool :=
  isWordJS c || isSpaceJS c || isKeptPunct c

/-- JavaScript `String.prototype.toLowerCase` restricted to the basic Latin
range (`A` to `Z` map to `a` to `z`, everything else unchanged), written as an
explicit character table so that proofs are finite case analyses. -/
def toLowerJS (c : Char) : Char :=
  if c = 'A' then 'a' else if c = 'B' then 'b' else if c = 'C' then 'c' else
  if c = 'D' then 'd' else if c = 'E' then 'e' else if c = 'F' then 'f' else
  if c = 'G' then 'g' else if c = 'H' then 'h' else if c = 'I' then 'i' else
  if c = 'J' then 'j' else if c = 'K' then 'k' else if c = 'L' then 'l' else
  if c = 'M' then 'm' else if c = 'N' then 'n' else if c = 'O' then 'o' else
  if c = 'P' then 'p' else if c = 'Q' then 'q' else if c = 'R' then 'r' else
  if c = 'S' then 's' else if c = 'T' then 't' else if c = 'U' then 'u' else
  if c = 'V' then 'v' else if c = 'W' then 'w' else if c = 'X' then 'x' else
  if c = 'Y' then 'y' else if c = 'Z' then 'z' else c

/-- The `trim()` call: drop whitespace at both ends. -/
def trimChars (l : List Char) : List Char :=
  ((l.dropWhile isSpaceJS).reverse.dropWhile isSpaceJS).reverse

/-- The `replace` of `\s+` by a single space: every maximal run of whitespace
becomes one space.  The flag records whether the previous character was
whitespace (so the current run has already emitted its single space). -/
def collapseWsAux : Bool → List Char → List Char
  | _, [] => []
  | prevWs, c :: cs =>
    if isSpaceJS c then
      if prevWs then collapseWsAux true cs else ' ' :: collapseWsAux true cs
    else c :: collapseWsAux false cs

/-- Whitespace-run collapsing, starting outside any run. -/
def collapseWs (l : List Char) : List Char := collapseWsAux false l

/-- The character-dropping `replace`: keep only characters in the kept set. -/
def removeSpecial (l : List Char) : List Char := l.filter isKept

/-- The `toLowerCase()` call, characterwise. -/
def lowerChars (l : List Char) : List Char := l.map toLowerJS

/-- Model of `EmbeddingService.preprocessText` on character lists, applying
the source's four stages in order: trim, collapse whitespace runs, drop
special characters, lowercase. -/
def preprocessChars (l : List Char) : List Char :=
  lowerChars (removeSpecial (collapseWs (trimChars l)))

/-- Model of `EmbeddingService.preprocessText` on strings. -/
def preprocessText (s : String) : String := ⟨preprocessChars s.data⟩

/-!
Section: `EmbeddingService.calculateSimilarity`.

Source: after a length check (`throw` on mismatch), a single loop
accumulates `dotProduct`, `norm1` and `norm2` (the two squared norms); then
`Math.sqrt` is taken of both norms, a zero check returns `0`, and otherwise
the quotient is returned.  `Math.sqrt` is external and is passed as the
parameter `sqrtQ`.
-/

/-- Accumulated dot product of the loop in `calculateSimilarity`. -/
def dotProduct (a b : List ℚ) : ℚ :=
  ((a.zip b).map fun p => p.1 * p.2).sum

/-- Accumulated squared Euclidean norm of the loop in `calculateSimilarity`. -/
def normSq (a : List ℚ) : ℚ :=
  (a.map fun x => x * x).sum

/-- Model of `EmbeddingService.calculateSimilarity`.  `sqrtQ` stands for the
external `Math.sqrt`. -/
def calculateSimilarity (sqrtQ : ℚ → ℚ) (e1 e2 : List ℚ) : Except String ℚ :=
  if e1.length ≠ e2.length then
    .error "Embeddings must have the same dimension"
  else
    let dot := dotProduct e1 e2
    let n1 := sqrtQ (normSq e1)
    let n2 := sqrtQ (normSq e2)
    if n1 = 0 ∨ n2 = 0 then .ok 0
    else .ok (dot / (n1 * n2))

/-!
Section: `EmbeddingService.initializeModel` and the lazy-initialization
guard in `EmbeddingService.generateEmbedding`.

The service state carries the two relevant instance fields: `this.model`
(modelled as the boolean `modelLoaded`, i.e. non-null) and `this.isLoading`.
`initializeModel` is split at its single suspension point, the
`await pipeline(...)` call:

* `initializeModelEntry` is the synchronous prefix — the guard
  `if (this.model || this.isLoading) return;` followed by
  `this.isLoading = true` — returning the new state together with `true`
  when the method returned at the guard and `false` when it proceeded to
  start a load;
* `initializeModelResume` is the continuation run when the awaited load
  completes successfully: `this.model = <pipeline>` and (via `finally`)
  `this.isLoading = false`.
-/

/-- Fields of `EmbeddingService` relevant to initialization. -/
structure SvcState where
  modelLoaded : Bool
  isLoading : Bool
deriving DecidableEq, Repr

/-- Synchronous prefix of `initializeModel`, up to the `await`.  The second
component is `true` exactly when the call returned at the guard without
starting a load. -/
def initializeModelEntry (s : SvcState) : SvcState × Bool :=
  if s.modelLoaded || s.isLoading then (s, true)
  else ({ s with isLoading := true }, false)

/-- Continuation of `initializeModel` once the awaited `pipeline` load
completes successfully. -/
def initializeModelResume (_s : SvcState) : SvcState :=
  { modelLoaded := true, isLoading := false }

/-- Guard sequence at the top of `generateEmbedding` when it is invoked in
state `s` (while any other load stays suspended): `if (!this.model) await
initializeModel()` — where that call can only run its synchronous prefix
before returning — followed by `if (!this.model) throw ...`.  Returns `true`
exactly when the `throw new Error('Embedding model not initialized')` fires. -/
def generateEmbeddingThrows (s : SvcState) : Bool :=
  let s1 := if !s.modelLoaded then (initializeModelEntry s).1 else s
  !s1.modelLoaded

/-!
Section: the essays table and the SQL function `match_essays`.

From the schema file: an essay row has `id, title, content, type, college,
prompt, topics, structure_analysis, metadata, embedding, created_at,
updated_at`; `embedding` is nullable.  The two JSONB columns play no role in
any modelled computation and are carried as opaque strings.
-/

/-- A row of the `essays` table. -/
structure Essay where
  id : String
  title : Option String
  content : String
  type : String
  college : Option String
  prompt : Option String
  topics : List String
  structureAnalysis : Option String
  metadata : Option String
  embedding : Option (List ℚ)
  createdAt : String
  updatedAt : String
deriving DecidableEq, Repr

/-- A row returned by `match_essays`: every column of the essay plus the
computed `similarity`. -/
structure MatchRow where
  essay : Essay
  similarity : ℚ
deriving DecidableEq, Repr

/-- Descending-similarity order used to model `ORDER BY essays.embedding <=>
query_embedding` (ascending cosine distance is the same order as descending
`1 - distance`). -/
def simGE (a b : MatchRow) : Prop := b.similarity ≤ a.similarity

instance : DecidableRel simGE := fun a b =>
  inferInstanceAs (Decidable (b.similarity ≤ a.similarity))

/-- Model of the SQL function `match_essays(query_embedding,
match_threshold, match_count)`.  `dist` stands for the external pgvector
cosine-distance operator; a row's similarity is `1 - dist`.  The body:
keep rows with a non-null embedding whose similarity strictly exceeds
`match_threshold`, order by ascending distance (descending similarity),
and truncate to `match_count` rows. -/
def matchEssays (dist : List ℚ → List ℚ → ℚ) (essays : List Essay)
    (queryEmbedding : List ℚ) (matchThreshold : ℚ) (matchCount : ℕ) :
    List MatchRow :=
  let rows := essays.filterMap fun e =>
    e.embedding.map fun emb => MatchRow.mk e (1 - dist emb queryEmbedding)
  let filtered := rows.filter fun r => matchThreshold < r.similarity
  (List.insertionSort simGE filtered).take matchCount

/-- Defaults declared by the SQL function itself: `match_threshold float
DEFAULT 0.78, match_count int DEFAULT 5`.  They apply only to arguments
omitted in the SQL call. -/
def matchEssaysSql (dist : List ℚ → List ℚ → ℚ) (essays : List Essay)
    (queryEmbedding : List ℚ) (matchThreshold : Option ℚ)
    (matchCount : Option ℕ) : List MatchRow :=
  matchEssays dist essays queryEmbedding (matchThreshold.getD (78/100))
    (matchCount.getD 5)

/-!
Section: `SupabaseService.searchSimilarEssays`.

Source:
```
async searchSimilarEssays(queryEmbedding, essayType?, limit = 5, threshold = 0.7) {
  try {
    let query = this.supabase.rpc('match_essays', {
      query_embedding: queryEmbedding,
      match_threshold: threshold,
      match_count: limit });
    if (essayType && essayType !== 'all') { query = query.eq('type', essayType); }
    const { data, error } = await query;
    if (error) { return []; }
    return data || [];
  } catch (error) { return []; }
}
```
The TypeScript always passes `match_threshold` and `match_count` to the RPC
(so the SQL defaults never apply on this path), with its own defaults `0.7`
and `5` for omitted arguments, modelled with `Option`/`getD`.  The chained
`.eq('type', ...)` is a PostgREST filter on the rows *returned by* the
function call, i.e. it is applied after the function's internal threshold
filter, ordering and `LIMIT`.  The awaited outcome is either a thrown
exception, an error result, a null `data`, or the row set.
-/

/-- Possible outcomes of the awaited Supabase RPC round trip. -/
inductive RpcOutcome where
  | thrown (msg : String)
  | errResult (msg : String)
  | nullData
  | success
deriving DecidableEq, Repr

/-- Model of `SupabaseService.searchSimilarEssays`. -/
def SupabaseService.searchSimilarEssays (dist : List ℚ → List ℚ → ℚ)
    (essays : List Essay) (rpc : RpcOutcome) (queryEmbedding : List ℚ)
    (essayType : Option String) (limit : Option ℕ) (threshold : Option ℚ) :
    List MatchRow :=
  match rpc with
  | .thrown _ => []
  | .errResult _ => []
  | .nullData => []
  | .success =>
    let rows := matchEssaysSql dist essays queryEmbedding
      (some (threshold.getD (7/10))) (some (limit.getD 5))
    match essayType with
    | some t => if t ≠ "all" ∧ t ≠ "" then rows.filter (fun r => r.essay.type = t) else rows
    | none => rows

/-!
Section: `WritingSpecialistAgent`.

The agent is parametrised by its effectful collaborators, all modelled as
pure functions: the Anthropic client (`llm`), the embedding service
(`embed`, standing for a successfully– or unsuccessfully–completing
`generateEmbedding` call), the database (`dist`, `essays`, `rpc`,
`topicLookup`) and `JSON.stringify` (`stringify`).  A thrown exception is an
`Except.error`.
-/

/-- The `structure` field of an `EssayAnalysis` (source interface
`EssayAnalysis.structure`). -/
structure AnalysisSections where
  hook : String
  exposition : String
  conflict : String
  learning : String
  conclusion : String
deriving DecidableEq, Repr

/-- The source interface `EssayAnalysis` (the optional `college` and
`prompt` fields are never set by the code and are omitted by
`JSON.stringify`; they are modelled as absent). -/
structure EssayAnalysis where
  type : String
  sections : AnalysisSections
  topics : List String
  strengths : List String
  weaknesses : List String
  suggestions : List String
deriving DecidableEq, Repr

/-- Model of `WritingSpecialistAgent.analyzeEssay`.  The TypeScript
`analysisType : string` annotation is erased at runtime, so the argument is
an `Option String`; the body never reads it.  `essayText.substring(0, 100)`
is the first 100 characters (the whole string when shorter). -/
def analyzeEssay (essayText : String) (_analysisType : Option String) :
    EssayAnalysis where
  type := "personal_statement"
  sections :=
    { hook := essayText.take 100 ++ "..."
      exposition := "Analysis of exposition section..."
      conflict := "Analysis of conflict section..."
      learning := "Analysis of learning/growth section..."
      conclusion := "Analysis of conclusion..." }
  topics := ["identity", "growth", "challenges"]
  strengths := ["Strong hook", "Clear narrative arc", "Personal voice"]
  weaknesses := ["Could use more specific examples", "Conclusion could be stronger"]
  suggestions := ["Add more concrete details", "Strengthen the conclusion with future goals"]

/-- Arguments of a tool invocation.  The source accesses exactly these six
properties of the untyped `input` object; any of them may be absent. -/
structure ToolInput where
  essay_text : Option String := none
  analysis_type : Option String := none
  query : Option String := none
  essay_type : Option String := none
  limit : Option ℕ := none
  topic : Option String := none
deriving DecidableEq, Repr

/-- A content block of an Anthropic message: a text block, a tool-use block
(with its identifier, tool name and arguments), or a tool-result block. -/
inductive Block where
  | text (s : String)
  | toolUse (id name : String) (input : ToolInput)
  | toolResult (toolUseId content : String)
deriving DecidableEq, Repr

/-- One message of an Anthropic request: a role and its content blocks (a
plain-string content is a single text block). -/
structure ChatMessage where
  role : String
  content : List Block
deriving DecidableEq, Repr

/-- A model response is its list of content blocks. -/
abbrev ModelResponse := List Block

/-- Result of a tool execution, as handed to `JSON.stringify`. -/
inductive ToolResult where
  | analysis (a : EssayAnalysis)
  | essays (rs : List MatchRow)
  | examples (es : List Essay)
deriving DecidableEq, Repr

/-- The three tool names registered in the `tools` array of
`processMessage`. -/
def toolNames : List String :=
  ["analyze_essay", "search_similar_essays", "get_essay_examples"]

/-- The templated content of the first request's user message. -/
def promptTemplate (message : String) : String :=
  "You are a WritingSpecialist agent that helps students with college essays. You have access to a database of successful essays and can analyze writing, provide feedback, and suggest improvements.\n\nCurrent user message: " ++ message ++ "\n\nPlease help the user with their writing needs. If they provide an essay to analyze, use the analyze_essay function. If they want to see examples or find similar essays, use the appropriate search functions."

/-- External collaborators of the agent, as pure functions. -/
structure AgentEnv where
  llm : List ChatMessage → Except String ModelResponse
  embed : String → Except String (List ℚ)
  dist : List ℚ → List ℚ → ℚ
  essays : List Essay
  rpc : RpcOutcome
  topicLookup : Option String → Option String → Except String (List Essay)
  stringify : ToolResult → String

/-- Model of `WritingSpecialistAgent.searchSimilarEssays`.  The body is one
`try`/`catch` returning `[]` on any failure: a missing `query` makes
`generateEmbedding` throw on `undefined.trim()`, a failed embedding throws,
and the Supabase call catches its own failures internally.  JavaScript
default parameters give `essayType` the value `'all'` and `limit` the value
`5` when absent, and `'all'` is turned back into `undefined` at the call. -/
def WritingSpecialistAgent.searchSimilarEssays (env : AgentEnv)
    (query : Option String) (essayType : Option String) (limit : Option ℕ) :
    List MatchRow :=
  match query with
  | none => []
  | some q =>
    match env.embed q with
    | .error _ => []
    | .ok emb =>
      let et := essayType.getD "all"
      SupabaseService.searchSimilarEssays env.dist env.essays env.rpc emb
        (if et = "all" then none else some et) (some (limit.getD 5)) none

/-- Model of `WritingSpecialistAgent.getEssayExamples`: one `try`/`catch`
around `supabaseService.getEssaysByTopic`, returning `[]` on any thrown
failure. -/
def WritingSpecialistAgent.getEssayExamples (env : AgentEnv)
    (topic : Option String) (essayType : Option String) : List Essay :=
  match env.topicLookup topic essayType with
  | .error _ => []
  | .ok es => es

/-- Model of `WritingSpecialistAgent.handleToolCall`: a `switch` on the tool
name.  `analyze_essay` with an absent `essay_text` throws a `TypeError`
(`undefined.substring`); an unregistered name throws `Unknown tool`. -/
def WritingSpecialistAgent.handleToolCall (env : AgentEnv)
    (toolName : String) (input : ToolInput) : Except String ToolResult :=
  if toolName = "analyze_essay" then
    match input.essay_text with
    | none => .error "TypeError: Cannot read properties of undefined (reading 'substring')"
    | some t => .ok (.analysis (analyzeEssay t input.analysis_type))
  else if toolName = "search_similar_essays" then
    .ok (.essays (WritingSpecialistAgent.searchSimilarEssays env input.query
      input.essay_type input.limit))
  else if toolName = "get_essay_examples" then
    .ok (.examples (WritingSpecialistAgent.getEssayExamples env input.topic
      input.essay_type))
  else
    .error ("Unknown tool: " ++ toolName)

/-- The `response.content.find(content => content.type === 'tool_use')`
call: the first tool-use block, with its identifier, name and input. -/
def findToolUse : List Block → Option (String × String × ToolInput)
  | [] => none
  | .toolUse i n inp :: _ => some (i, n, inp)
  | _ :: bs => findToolUse bs

/-- The `content.find(content => content.type === 'text')` call: the text of
the first text block. -/
def findText : List Block → Option String
  | [] => none
  | .text s :: _ => some s
  | _ :: bs => findText bs

/-- The fixed apology returned by the orchestrator's `catch`. -/
def apologyMessage : String :=
  "I apologize, but I encountered an error processing your request. Please try again."

/-- The fixed fallback when the follow-up response has no text block. -/
def toolFallbackMessage : String := "I processed your request using my tools."

/-- The fixed fallback when a no-tool response has no text block. -/
def noResponseFallback : String :=
  "I apologize, but I could not generate a response."

/-- The first request sent by `processMessage`: a single user message with
the templated prompt (the `tools` array sent alongside is the fixed
`toolNames` schema list and is omitted from the request model). -/
def firstRequest (message : String) : List ChatMessage :=
  [⟨"user", [.text (promptTemplate message)]⟩]

/-- The follow-up request: the original user message, the first response's
content as the assistant turn, and a tool-result block bound to the
invocation's identifier, carrying the stringified tool result. -/
def followUpRequest (env : AgentEnv) (message : String)
    (firstContent : ModelResponse) (toolUseId : String) (res : ToolResult) :
    List ChatMessage :=
  [⟨"user", [.text message]⟩,
   ⟨"assistant", firstContent⟩,
   ⟨"user", [.toolResult toolUseId (env.stringify res)]⟩]

/-- Model of `WritingSpecialistAgent.processMessage`.  Returns the string
resolved to the caller together with the list of Anthropic requests issued,
in order.  The whole body is wrapped in `try`/`catch`, so every internal
throw — a failed first call, a throwing tool, a failed follow-up — resolves
to the fixed apology; the function is total.  The unused `sessionId`
parameter of the source is kept. -/
def WritingSpecialistAgent.processMessage (env : AgentEnv) (message : String)
    (_sessionId : String) : String × List (List ChatMessage) :=
  let req1 := firstRequest message
  match env.llm req1 with
  | .error _ => (apologyMessage, [req1])
  | .ok content =>
    match findToolUse content with
    | some (tuId, tuName, tuInput) =>
      match WritingSpecialistAgent.handleToolCall env tuName tuInput with
      | .error _ => (apologyMessage, [req1])
      | .ok toolRes =>
        let req2 := followUpRequest env message content tuId toolRes
        match env.llm req2 with
        | .error _ => (apologyMessage, [req1, req2])
        | .ok followUp =>
          ((findText followUp).getD toolFallbackMessage, [req1, req2])
    | none =>
      ((findText content).getD noResponseFallback, [req1])

/-!
Section: concrete instantiations used to evaluate the model on closed
inputs.  `cosineDistance` is the mathematical function computed by the
external pgvector operator (`1 − cos θ`), with the square root passed as a
function that is exact on the inputs it is applied to.
-/

/-- Cosine distance, the function computed by the pgvector operator used in
`match_essays` (`sqrtQ` stands for the square root, exact on the perfect
squares it is applied to below). -/
def cosineDistance (sqrtQ : ℚ → ℚ) (a b : List ℚ) : ℚ :=
  1 - dotProduct a b / (sqrtQ (normSq a) * sqrtQ (normSq b))

/-- Square-root table for the squared norms appearing in the concrete
C1 evaluation: `√841 = 29`, `√1 = 1`. -/
def sqrtTableC1 : ℚ → ℚ :=
  fun x => if x = 841 then 29 else if x = 1 then 1 else 0

/-- Square-root table for the concrete C6 evaluation: `√25 = 5`, `√1 = 1`. -/
def sqrtTableC6 : ℚ → ℚ :=
  fun x => if x = 25 then 5 else if x = 1 then 1 else 0

/-- An essay whose embedding has cosine similarity `21/29 ≈ 0.724` to the
query vector `[0, 1]` — strictly between the TypeScript default threshold
`0.7` and the SQL default `0.78`. -/
def essayAt724 : Essay where
  id := "e1"
  title := none
  content := "content one"
  type := "personal_statement"
  college := none
  prompt := none
  topics := []
  structureAnalysis := none
  metadata := none
  embedding := some [20, 21]
  createdAt := "t0"
  updatedAt := "t0"

/-- An essay of a non-matching category whose embedding is identical to the
query vector `[1, 0]` (similarity `1`). -/
def essayOtherTop : Essay where
  id := "e2"
  title := none
  content := "content two"
  type := "other"
  college := none
  prompt := none
  topics := []
  structureAnalysis := none
  metadata := none
  embedding := some [1, 0]
  createdAt := "t0"
  updatedAt := "t0"

/-- An essay of the matching category with similarity `4/5 = 0.8` to the
query vector `[1, 0]`. -/
def essayPSGood : Essay where
  id := "e3"
  title := none
  content := "content three"
  type := "personal_statement"
  college := none
  prompt := none
  topics := []
  structureAnalysis := none
  metadata := none
  embedding := some [4, 3]
  createdAt := "t0"
  updatedAt := "t0"

/-- Tool input carrying a well-formed `essay_text` together with an
`analysis_type` value outside the schema's closed enumeration. -/
def inputBadEnum : ToolInput where
  essay_text := some "A short essay."
  analysis_type := some "bogus_mode"

/-- Environment whose model requests `analyze_essay` with the out-of-enum
`analysis_type` on the first call and answers with a text block on the
follow-up. -/
def envBadEnum : AgentEnv where
  llm := fun reqs =>
    if reqs.length = 1 then .ok [.toolUse "tu9" "analyze_essay" inputBadEnum]
    else .ok [.text "Essay feedback text"]
  embed := fun _ => .error "unused"
  dist := fun _ _ => 0
  essays := []
  rpc := .success
  topicLookup := fun _ _ => .error "unused"
  stringify := fun _ => "{}"

/-- First-response content used in the round-trip evaluation: a single
well-formed `analyze_essay` tool-use block. -/
def firstContentRT : ModelResponse :=
  [.toolUse "tu1" "analyze_essay"
    { essay_text := some "My essay", analysis_type := some "deep_analysis" }]

/-- Follow-up-response content used in the round-trip evaluation: a text
block together with a second tool-use block, which the orchestrator must
ignore. -/
def followUpContentRT : ModelResponse :=
  [.text "Here is feedback",
   .toolUse "tu2" "analyze_essay" { essay_text := some "again" }]

/-- The tool result produced by the round-trip evaluation's tool call. -/
def toolResultRT : ToolResult :=
  .analysis (analyzeEssay "My essay" (some "deep_analysis"))

/-- Environment whose model requests a well-formed `analyze_essay` call on
the first request (which has one message) and answers `followUpContentRT`
on the follow-up (which has three). -/
def envRoundTrip : AgentEnv where
  llm := fun reqs =>
    if reqs.length = 1 then .ok firstContentRT else .ok followUpContentRT
  embed := fun _ => .error "unused"
  dist := fun _ _ => 0
  essays := []
  rpc := .success
  topicLookup := fun _ _ => .error "unused"
  stringify := fun _ => "{}"

/-- Environment whose model requests a tool name that is not registered. -/
def envUnknownTool : AgentEnv where
  llm := fun reqs =>
    if reqs.length = 1 then .ok [.toolUse "tu3" "delete_database" {}]
    else .ok [.text "should never be reached"]
  embed := fun _ => .error "unused"
  dist := fun _ _ => 0
  essays := []
  rpc := .success
  topicLookup := fun _ _ => .error "unused"
  stringify := fun _ => "{}"

/-- Environment in which every Anthropic call fails. -/
def envLlmDown : AgentEnv where
  llm := fun _ => .error "network error"
  embed := fun _ => .ok [1]
  dist := fun _ _ => 0
  essays := []
  rpc := .success
  topicLookup := fun _ _ => .ok []
  stringify := fun _ => "{}"

/-- Environment in which the document-store read paths fail: the similarity
RPC throws and the topic lookup throws. -/
def envStoreDown : AgentEnv where
  llm := fun _ => .ok [.text "unused"]
  embed := fun _ => .ok [1]
  dist := fun _ _ => 0
  essays := [essayAt724]
  rpc := .thrown "connection refused"
  topicLookup := fun _ _ => .error "connection refused"
  stringify := fun _ => "{}"

/-- Uppercase basic Latin letters, the domain on which the lowercasing
table acts. -/
def upperList : List Char :=
  ['A','B','C','D','E','F','G','H','I','J','K','L','M',
   'N','O','P','Q','R','S','T','U','V','W','X','Y','Z']

/-- Lowercase basic Latin letters, the range of the lowercasing table. -/
def lowerList : List Char :=
  ['a','b','c','d','e','f','g','h','i','j','k','l','m',
   'n','o','p','q','r','s','t','u','v','w','x','y','z']

/-- Well-spacedness invariant: every whitespace character is a plain space,
none is adjacent to another, and the flag forbids whitespace at the head. -/
def noBadWs : Bool → List Char → Bool
  | _, [] => true
  | b, c :: cs =>
    if isSpaceJS c then !b && (c == ' ') && noBadWs true cs
    else noBadWs false cs

/-!
Theorems.
-/

/-- Sum of squares of a list of zeros is zero. -/
theorem normSq_eq_zero_of_all_zero {a : List ℚ} (h : ∀ x ∈ a, x = 0) :
    normSq a = 0 := by
  apply List.sum_eq_zero
  intro x hx
  simp only [List.mem_map] at hx
  obtain ⟨y, hy, rfl⟩ := hx
  rw [h y hy]
  ring

/-- C8: for every pair of equal-length vectors, if either operand is the
zero vector then `calculateSimilarity` returns exactly `0` — the `ok 0`
branch, never an error and never an undefined (NaN-producing) division. -/
theorem calculateSimilarity_zero_vector (sqrtQ : ℚ → ℚ) (e1 e2 : List ℚ)
    (hlen : e1.length = e2.length)
    (hzero : (∀ x ∈ e1, x = 0) ∨ (∀ x ∈ e2, x = 0))
    (hsqrt : sqrtQ 0 = 0) :
    calculateSimilarity sqrtQ e1 e2 = .ok 0 := by
  have hguard : sqrtQ (normSq e1) = 0 ∨ sqrtQ (normSq e2) = 0 := by
    rcases hzero with h | h
    · left; rw [normSq_eq_zero_of_all_zero h, hsqrt]
    · right; rw [normSq_eq_zero_of_all_zero h, hsqrt]
  unfold calculateSimilarity
  rw [if_neg (by omega), if_pos hguard]

/-- Witness for C8 at the zero vector `[0, 0]` against `[1, 2]`. -/
theorem calculateSimilarity_zero_vector_witness :
    calculateSimilarity id [0, 0] [1, 2] = .ok 0 :=
  calculateSimilarity_zero_vector id [0, 0] [1, 2] (by decide)
    (Or.inl (by decide)) rfl

/-- C9: for every essay text and every `analysis_type` value, the
`analyze_essay` result equals a record that does not depend on
`analysis_type` at all and depends on the input text only through the hook
(the first 100 characters followed by an ellipsis): the type is always
`personal_statement` and the topics, strengths, weaknesses and suggestions
lists are fixed non-empty constants. -/
theorem analyzeEssay_mock_shape (text : String) (aty : Option String) :
    analyzeEssay text aty =
      { type := "personal_statement"
        sections :=
          { hook := text.take 100 ++ "..."
            exposition := "Analysis of exposition section..."
            conflict := "Analysis of conflict section..."
            learning := "Analysis of learning/growth section..."
            conclusion := "Analysis of conclusion..." }
        topics := ["identity", "growth", "challenges"]
        strengths := ["Strong hook", "Clear narrative arc", "Personal voice"]
        weaknesses := ["Could use more specific examples", "Conclusion could be stronger"]
        suggestions := ["Add more concrete details", "Strengthen the conclusion with future goals"] } ∧
    (analyzeEssay text aty).topics ≠ [] ∧
    (analyzeEssay text aty).strengths ≠ [] ∧
    (analyzeEssay text aty).weaknesses ≠ [] ∧
    (analyzeEssay text aty).suggestions ≠ [] :=
  ⟨rfl, List.cons_ne_nil _ _, List.cons_ne_nil _ _, List.cons_ne_nil _ _,
    List.cons_ne_nil _ _⟩

/-- C3 (amended): the initialization guard is idempotent and prevents a
duplicate load — a call made while the model is loaded, or while a load is
in flight, returns immediately with the state unchanged — and a load that
completes marks the model loaded.  It does not make the second caller wait. -/
theorem initializeModel_guard (s : SvcState)
    (h : s.modelLoaded = true ∨ s.isLoading = true) :
    initializeModelEntry s = (s, true) ∧
    (∀ s', (initializeModelResume s').modelLoaded = true ∧
      (initializeModelResume s').isLoading = false) := by
  refine ⟨?_, fun s' => ⟨rfl, rfl⟩⟩
  unfold initializeModelEntry
  rcases h with h | h <;> rw [if_pos] <;> simp [h]

/-- Witness for C3's amended guard at a state with a load in flight. -/
theorem initializeModel_guard_witness :
    initializeModelEntry ⟨false, true⟩ = (⟨false, true⟩, true) :=
  (initializeModel_guard ⟨false, true⟩ (Or.inr rfl)).1

/-- C3 (counterexample): from the initial state, a first `initializeModel`
call proceeds to load (`false`); a second call arriving while that load is
in flight returns immediately (`true`) with the model still unloaded, and a
`generateEmbedding` arriving during the load throws `Embedding model not
initialized` instead of awaiting the in-flight load. -/
theorem initializeModel_second_call_returns_early :
    (initializeModelEntry ⟨false, false⟩).2 = false ∧
    (initializeModelEntry (initializeModelEntry ⟨false, false⟩).1).2 = true ∧
    (initializeModelEntry
      (initializeModelEntry ⟨false, false⟩).1).1.modelLoaded = false ∧
    generateEmbeddingThrows (initializeModelEntry ⟨false, false⟩).1 = true := by
  decide

/-- C7: whenever the document-store read fails — the similarity RPC throws
or returns an error result, and the topic lookup throws — the
`search_similar_essays` tool and the `get_essay_examples` tool both return
an empty list instead of propagating the failure. -/
theorem read_failure_returns_empty (env : AgentEnv) (q et : Option String)
    (lim : Option ℕ) (topic : Option String) (m m' : String)
    (h1 : env.rpc = .thrown m ∨ env.rpc = .errResult m)
    (h2 : env.topicLookup topic et = .error m') :
    WritingSpecialistAgent.searchSimilarEssays env q et lim = [] ∧
    WritingSpecialistAgent.getEssayExamples env topic et = [] := by
  constructor
  · unfold WritingSpecialistAgent.searchSimilarEssays
    cases q with
    | none => rfl
    | some q' =>
      cases hemb : env.embed q' with
      | error e => simp only [hemb]
      | ok emb =>
        simp only [hemb]
        unfold SupabaseService.searchSimilarEssays
        rcases h1 with h | h <;> rw [h]
  · unfold WritingSpecialistAgent.getEssayExamples
    rw [h2]

/-- Witness for C7 in the outage environment. -/
theorem read_failure_returns_empty_witness :
    WritingSpecialistAgent.searchSimilarEssays envStoreDown
      (some "leadership essay") none none = [] ∧
    WritingSpecialistAgent.getEssayExamples envStoreDown
      (some "identity") none = [] :=
  read_failure_returns_empty envStoreDown (some "leadership essay") none none
    (some "identity") "connection refused" "connection refused"
    (Or.inl rfl) rfl

/-- C2: whenever the first model response contains a tool-use block (the
first such block being `(tuId, tuName, tuInput)`), the tool executes and
exactly one follow-up request is issued — carrying the original user
message, the prior assistant content and the tool result bound to `tuId` —
and the turn's answer is the follow-up response's first text block, with
the fixed fallback when the follow-up has no text block.  The follow-up
content `followUp` is arbitrary, so no second tool round trip happens
regardless of what it contains. -/
theorem processMessage_tool_round_trip (env : AgentEnv) (message sid : String)
    (content : ModelResponse) (tuId tuName : String) (tuInput : ToolInput)
    (toolRes : ToolResult) (followUp : ModelResponse)
    (h1 : env.llm (firstRequest message) = .ok content)
    (h2 : findToolUse content = some (tuId, tuName, tuInput))
    (h3 : WritingSpecialistAgent.handleToolCall env tuName tuInput = .ok toolRes)
    (h4 : env.llm (followUpRequest env message content tuId toolRes) = .ok followUp) :
    WritingSpecialistAgent.processMessage env message sid =
      ((findText followUp).getD toolFallbackMessage,
       [firstRequest message,
        followUpRequest env message content tuId toolRes]) := by
  unfold WritingSpecialistAgent.processMessage
  simp only [h1, h2, h3, h4]

/-- Witness for C2: a full concrete turn through `envRoundTrip`; the
answer is the follow-up's text block even though the follow-up also
contains a tool-use block, and exactly two requests were issued. -/
theorem processMessage_tool_round_trip_witness :
    WritingSpecialistAgent.processMessage envRoundTrip "Review my essay" "s1" =
      ("Here is feedback",
       [firstRequest "Review my essay",
        followUpRequest envRoundTrip "Review my essay" firstContentRT "tu1"
          toolResultRT]) :=
  processMessage_tool_round_trip envRoundTrip "Review my essay" "s1"
    firstContentRT "tu1" "analyze_essay"
    { essay_text := some "My essay", analysis_type := some "deep_analysis" }
    toolResultRT followUpContentRT rfl rfl rfl rfl

/-- C10: every internal failure of `processMessage` — a failed first model
call, a throwing tool handler, or a failed follow-up call — resolves to the
same fixed apology string (the function itself is total by construction,
returning a plain string in every case). -/
theorem processMessage_failure_apology (env : AgentEnv) (message sid : String)
    (h : (∃ e, env.llm (firstRequest message) = .error e) ∨
      (∃ content tuId tuName tuInput e,
        env.llm (firstRequest message) = .ok content ∧
        findToolUse content = some (tuId, tuName, tuInput) ∧
        WritingSpecialistAgent.handleToolCall env tuName tuInput = .error e) ∨
      (∃ content tuId tuName tuInput toolRes e,
        env.llm (firstRequest message) = .ok content ∧
        findToolUse content = some (tuId, tuName, tuInput) ∧
        WritingSpecialistAgent.handleToolCall env tuName tuInput = .ok toolRes ∧
        env.llm (followUpRequest env message content tuId toolRes) = .error e)) :
    (WritingSpecialistAgent.processMessage env message sid).1 =
      apologyMessage := by
  unfold WritingSpecialistAgent.processMessage
  rcases h with ⟨e, h1⟩ | ⟨c, ti, tn, inp, e, h1, h2, h3⟩ |
      ⟨c, ti, tn, inp, tr, e, h1, h2, h3, h4⟩
  · simp only [h1]
  · simp only [h1, h2, h3]
  · simp only [h1, h2, h3, h4]

/-- Witness for C10 in the environment where the model call fails. -/
theorem processMessage_failure_apology_witness :
    (WritingSpecialistAgent.processMessage envLlmDown "hello" "s2").1 =
      apologyMessage :=
  processMessage_failure_apology envLlmDown "hello" "s2"
    (Or.inl ⟨"network error", rfl⟩)

/-- C4 (amended): the only validation performed on a tool invocation is of
its name — a name outside the three registered tools makes `handleToolCall`
throw `Unknown tool`, which the orchestrator's `catch` converts to the
fixed apology without issuing a follow-up request, so the turn aborts and
no tool executes.  Argument validation does not exist in the agent (see the
counterexample for an out-of-enumeration value that executes anyway). -/
theorem unknown_tool_aborts (env : AgentEnv) (message sid : String)
    (content : ModelResponse) (tuId tuName : String) (tuInput : ToolInput)
    (h1 : env.llm (firstRequest message) = .ok content)
    (h2 : findToolUse content = some (tuId, tuName, tuInput))
    (h3 : tuName ∉ toolNames) :
    WritingSpecialistAgent.handleToolCall env tuName tuInput =
      .error ("Unknown tool: " ++ tuName) ∧
    WritingSpecialistAgent.processMessage env message sid =
      (apologyMessage, [firstRequest message]) := by
  simp only [toolNames, List.mem_cons, List.not_mem_nil, or_false,
    not_or] at h3
  obtain ⟨n1, n2, n3⟩ := h3
  have hht : WritingSpecialistAgent.handleToolCall env tuName tuInput =
      .error ("Unknown tool: " ++ tuName) := by
    unfold WritingSpecialistAgent.handleToolCall
    rw [if_neg n1, if_neg n2, if_neg n3]
  refine ⟨hht, ?_⟩
  unfold WritingSpecialistAgent.processMessage
  simp only [h1, h2, hht]

/-- Witness for C4's amended claim: an invocation of the unregistered name
`delete_database` aborts the turn with the apology after one request. -/
theorem unknown_tool_aborts_witness :
    WritingSpecialistAgent.processMessage envUnknownTool "hi" "s3" =
      (apologyMessage, [firstRequest "hi"]) :=
  (unknown_tool_aborts envUnknownTool "hi" "s3"
    [.toolUse "tu3" "delete_database" {}] "tu3" "delete_database" {}
    rfl rfl (by decide)).2

/-- C4 (counterexample): `analysis_type := "bogus_mode"` lies outside the
schema's closed enumeration, yet the invocation is not rejected: the tool
executes and returns its analysis, the turn completes with the follow-up's
text block, and no apology is produced — refuting the claimed
`InvalidArguments` validation. -/
theorem enum_violation_not_validated :
    WritingSpecialistAgent.handleToolCall envBadEnum "analyze_essay"
      inputBadEnum =
      .ok (.analysis (analyzeEssay "A short essay." (some "bogus_mode"))) ∧
    (WritingSpecialistAgent.processMessage envBadEnum "msg" "s4").1 =
      "Essay feedback text" ∧
    "Essay feedback text" ≠ apologyMessage ∧
    inputBadEnum.analysis_type = some "bogus_mode" ∧
    "bogus_mode" ∉ ["quick_check", "deep_analysis", "structure_analysis"] := by
  refine ⟨rfl, rfl, by decide, rfl, by decide⟩

instance : IsTotal MatchRow simGE :=
  ⟨fun a b => le_total b.similarity a.similarity⟩

instance : IsTrans MatchRow simGE :=
  ⟨fun _ _ _ hab hbc => le_trans hbc hab⟩

/-- Rows produced by `match_essays` come from stored essays with a non-null
embedding and strictly exceed the threshold. -/
theorem mem_matchEssays {dist : List ℚ → List ℚ → ℚ} {essays : List Essay}
    {q : List ℚ} {th : ℚ} {cnt : ℕ} {r : MatchRow}
    (hr : r ∈ matchEssays dist essays q th cnt) :
    th < r.similarity ∧ r.essay ∈ essays ∧ r.essay.embedding ≠ none := by
  unfold matchEssays at hr
  have hr1 := List.take_subset _ _ hr
  have hr2 := (List.mem_insertionSort simGE).1 hr1
  have hr3 := List.mem_filter.1 hr2
  obtain ⟨hmem, hth⟩ := hr3
  obtain ⟨a, ha, hfa⟩ := List.mem_filterMap.1 hmem
  obtain ⟨emb, hemb, hmk⟩ := Option.map_eq_some'.1 hfa
  refine ⟨of_decide_eq_true hth, ?_, ?_⟩
  · rw [← hmk]; exact ha
  · rw [← hmk]; simp [hemb]

/-- The rows of `match_essays` are ordered by descending similarity. -/
theorem sorted_matchEssays (dist : List ℚ → List ℚ → ℚ) (essays : List Essay)
    (q : List ℚ) (th : ℚ) (cnt : ℕ) :
    List.Sorted simGE (matchEssays dist essays q th cnt) := by
  unfold matchEssays
  exact List.Pairwise.sublist (List.take_sublist _ _)
    (List.sorted_insertionSort simGE _)

/-- The rows of `match_essays` are capped at `match_count`. -/
theorem length_matchEssays_le (dist : List ℚ → List ℚ → ℚ)
    (essays : List Essay) (q : List ℚ) (th : ℚ) (cnt : ℕ) :
    (matchEssays dist essays q th cnt).length ≤ cnt := by
  unfold matchEssays
  exact List.length_take_le _ _

/-- C1 (amended): when no threshold and no limit are supplied,
`SupabaseService.searchSimilarEssays` ranks with threshold `0.7` (its own
TypeScript default — the SQL-declared default `0.78` applies only to an RPC
call that omits the argument, which the service never does) and limit `5`:
every returned row strictly exceeds `0.7`, comes from a stored essay with a
non-null embedding, and the rows are ordered by descending similarity and
capped at `5`. -/
theorem searchSimilarEssays_default_behavior (dist : List ℚ → List ℚ → ℚ)
    (essays : List Essay) (q : List ℚ) :
    SupabaseService.searchSimilarEssays dist essays .success q none none none =
      matchEssays dist essays q (7/10) 5 ∧
    (∀ r ∈ SupabaseService.searchSimilarEssays dist essays .success q none
        none none,
      7/10 < r.similarity ∧ r.essay ∈ essays ∧ r.essay.embedding ≠ none) ∧
    List.Sorted simGE
      (SupabaseService.searchSimilarEssays dist essays .success q none none
        none) ∧
    (SupabaseService.searchSimilarEssays dist essays .success q none none
      none).length ≤ 5 ∧
    matchEssaysSql dist essays q none none =
      matchEssays dist essays q (78/100) 5 := by
  have he : SupabaseService.searchSimilarEssays dist essays .success q none
      none none = matchEssays dist essays q (7/10) 5 := rfl
  refine ⟨he, ?_, ?_, ?_, rfl⟩
  · intro r hr
    rw [he] at hr
    exact mem_matchEssays hr
  · rw [he]; exact sorted_matchEssays dist essays q (7/10) 5
  · rw [he]; exact length_matchEssays_le dist essays q (7/10) 5

/-- C1 (counterexample): with no threshold supplied, the service returns a
document whose cosine similarity to the query is `21/29 ≈ 0.724` — above
its actual default `0.7` but not above the claimed default `0.78` — so the
claim that only documents with similarity strictly above `0.78` are
returned is false for the no-threshold call. -/
theorem searchSimilarEssays_default_below_078 :
    (SupabaseService.searchSimilarEssays (cosineDistance sqrtTableC1)
      [essayAt724] .success [0, 1] none none none).map MatchRow.similarity =
        [21/29] ∧
    ¬ (78/100 : ℚ) < 21/29 ∧ (7/10 : ℚ) < 21/29 := by
  refine ⟨?_, by norm_num, by norm_num⟩
  norm_num [SupabaseService.searchSimilarEssays, matchEssaysSql, matchEssays,
    essayAt724, cosineDistance, sqrtTableC1, dotProduct, normSq, simGE,
    List.insertionSort, List.orderedInsert, List.filterMap_cons,
    List.filter_cons, List.zip_cons_cons, List.sum_cons, List.take_succ_cons]

/-- C6 (amended): a supplied category filter (other than `all` or the empty
string) is applied as an exact-match predicate on the rows *returned by*
the ranking function, i.e. after the threshold filter, the ordering and the
`LIMIT`: the result is exactly the post-limit filter of the ranked rows (in
particular a sublist of them), and every returned row matches the category
exactly.  It is not applied before ranking. -/
theorem searchSimilarEssays_category_filter (dist : List ℚ → List ℚ → ℚ)
    (essays : List Essay) (q : List ℚ) (t : String) (lim : Option ℕ)
    (th : Option ℚ) (ht : t ≠ "all" ∧ t ≠ "") :
    SupabaseService.searchSimilarEssays dist essays .success q (some t) lim
        th =
      (matchEssays dist essays q (th.getD (7/10)) (lim.getD 5)).filter
        (fun r => r.essay.type = t) ∧
    (SupabaseService.searchSimilarEssays dist essays .success q (some t) lim
        th).Sublist
      (matchEssays dist essays q (th.getD (7/10)) (lim.getD 5)) ∧
    ∀ r ∈ SupabaseService.searchSimilarEssays dist essays .success q (some t)
        lim th,
      r.essay.type = t := by
  have he : SupabaseService.searchSimilarEssays dist essays .success q
      (some t) lim th =
      (matchEssays dist essays q (th.getD (7/10)) (lim.getD 5)).filter
        (fun r => r.essay.type = t) := by
    simp only [SupabaseService.searchSimilarEssays]
    rw [if_pos ht]
    rfl
  refine ⟨he, ?_, ?_⟩
  · rw [he]; exact List.filter_sublist _
  · intro r hr
    rw [he] at hr
    exact of_decide_eq_true (List.mem_filter.1 hr).2

/-- Witness for C6's amended claim at the category `supplemental`. -/
theorem searchSimilarEssays_category_filter_witness :
    SupabaseService.searchSimilarEssays (fun _ _ => 0) [] .success []
        (some "supplemental") none none =
      (matchEssays (fun _ _ => 0) [] [] ((none : Option ℚ).getD (7/10))
        ((none : Option ℕ).getD 5)).filter
        (fun r => r.essay.type = "supplemental") ∧
    (SupabaseService.searchSimilarEssays (fun _ _ => 0) [] .success []
        (some "supplemental") none none).Sublist
      (matchEssays (fun _ _ => 0) [] [] ((none : Option ℚ).getD (7/10))
        ((none : Option ℕ).getD 5)) ∧
    ∀ r ∈ SupabaseService.searchSimilarEssays (fun _ _ => 0) [] .success []
        (some "supplemental") none none,
      r.essay.type = "supplemental" :=
  searchSimilarEssays_category_filter (fun _ _ => 0) [] [] "supplemental"
    none none (by decide)

/-- C6 (counterexample): with two stored essays — a non-matching one at
similarity `1` and a matching one at similarity `4/5 = 0.8` (above even the
claimed threshold `0.78`) — and `limit = 1`, the filtered query returns no
rows at all, although one matching document above the threshold exists: the
category filter runs after the `LIMIT`, so it cannot fill the limit with
matching documents. -/
theorem category_filter_after_limit_counterexample :
    SupabaseService.searchSimilarEssays (cosineDistance sqrtTableC6)
      [essayOtherTop, essayPSGood] .success [1, 0]
      (some "personal_statement") (some 1) none = [] ∧
    essayPSGood.type = "personal_statement" ∧
    essayPSGood ∈ [essayOtherTop, essayPSGood] ∧
    (1 : ℚ) - cosineDistance sqrtTableC6 [4, 3] [1, 0] = 4/5 ∧
    (78/100 : ℚ) < 4/5 ∧ (7/10 : ℚ) < 4/5 := by
  refine ⟨?_, rfl, by simp, ?_, by norm_num, by norm_num⟩
  · norm_num [SupabaseService.searchSimilarEssays, matchEssaysSql, matchEssays,
      essayOtherTop, essayPSGood, cosineDistance, sqrtTableC6, dotProduct,
      normSq, simGE, List.insertionSort, List.orderedInsert,
      List.filterMap_cons, List.filter_cons, List.zip_cons_cons,
      List.sum_cons, List.take_succ_cons]
    rw [if_pos (by decide), if_neg (by decide)]
  · norm_num [cosineDistance, sqrtTableC6, dotProduct, normSq,
      List.zip_cons_cons, List.sum_cons]

theorem toLowerJS_cases (c : Char) :
    toLowerJS c = c ∨ (c ∈ upperList ∧ toLowerJS c ∈ lowerList) := by
  by_cases hu : c ∈ upperList
  · exact Or.inr ⟨hu, by fin_cases hu <;> decide⟩
  · left
    simp only [upperList, List.mem_cons, List.not_mem_nil, or_false,
      not_or] at hu
    obtain ⟨n1, n2, n3, n4, n5, n6, n7, n8, n9, n10, n11, n12, n13, n14, n15, n16, n17, n18, n19, n20, n21, n22, n23, n24, n25, n26⟩ := hu
    unfold toLowerJS
    rw [if_neg n1, if_neg n2, if_neg n3, if_neg n4, if_neg n5, if_neg n6, if_neg n7, if_neg n8, if_neg n9, if_neg n10, if_neg n11, if_neg n12, if_neg n13, if_neg n14, if_neg n15, if_neg n16, if_neg n17, if_neg n18, if_neg n19, if_neg n20, if_neg n21, if_neg n22, if_neg n23, if_neg n24, if_neg n25, if_neg n26]

theorem isSpaceJS_toLowerJS (c : Char) :
    isSpaceJS (toLowerJS c) = isSpaceJS c := by
  rcases toLowerJS_cases c with h | ⟨hu, hl⟩
  · rw [h]
  · have h1 : ∀ x ∈ lowerList, isSpaceJS x = false := by decide
    have h2 : ∀ x ∈ upperList, isSpaceJS x = false := by decide
    rw [h1 _ hl, h2 _ hu]

theorem toLowerJS_toLowerJS (c : Char) :
    toLowerJS (toLowerJS c) = toLowerJS c := by
  rcases toLowerJS_cases c with h | ⟨hu, hl⟩
  · rw [h]; exact h
  · have hfix : ∀ x ∈ lowerList, toLowerJS x = x := by decide
    rw [hfix _ hl]

theorem isKept_toLowerJS {c : Char} (h : isKept c = true) :
    isKept (toLowerJS c) = true := by
  rcases toLowerJS_cases c with he | ⟨hu, hl⟩
  · rw [he]; exact h
  · have hk : ∀ x ∈ lowerList, isKept x = true := by decide
    exact hk _ hl

theorem mem_collapseWsAux {c : Char} :
    ∀ (l : List Char) (b : Bool), c ∈ collapseWsAux b l → c = ' ' ∨ c ∈ l := by
  intro l
  induction l with
  | nil => intro b h; simp [collapseWsAux] at h
  | cons x xs ih =>
    intro b h
    unfold collapseWsAux at h
    by_cases hx : isSpaceJS x
    · rw [if_pos hx] at h
      cases b with
      | true =>
        rw [if_pos rfl] at h
        rcases ih true h with h' | h'
        · exact Or.inl h'
        · exact Or.inr (List.mem_cons_of_mem _ h')
      | false =>
        rw [if_neg (by simp)] at h
        rcases List.mem_cons.1 h with h' | h'
        · exact Or.inl h'
        · rcases ih true h' with h'' | h''
          · exact Or.inl h''
          · exact Or.inr (List.mem_cons_of_mem _ h'')
    · rw [if_neg hx] at h
      rcases List.mem_cons.1 h with h' | h'
      · exact Or.inr (h' ▸ List.mem_cons_self _ _)
      · rcases ih false h' with h'' | h''
        · exact Or.inl h''
        · exact Or.inr (List.mem_cons_of_mem _ h'')

theorem mem_trimChars {c : Char} {l : List Char} (h : c ∈ trimChars l) :
    c ∈ l := by
  unfold trimChars at h
  rw [List.mem_reverse] at h
  have h1 := (List.dropWhile_sublist _).subset h
  rw [List.mem_reverse] at h1
  exact (List.dropWhile_sublist _).subset h1

theorem noBadWs_collapseWsAux : ∀ (l : List Char) (b : Bool),
    noBadWs b (collapseWsAux b l) = true := by
  intro l
  induction l with
  | nil => intro b; rfl
  | cons x xs ih =>
    intro b
    unfold collapseWsAux
    by_cases hx : isSpaceJS x
    · rw [if_pos hx]
      cases b with
      | true => rw [if_pos rfl]; exact ih true
      | false =>
        rw [if_neg (by simp)]
        unfold noBadWs
        rw [if_pos (by decide : isSpaceJS ' ' = true)]
        simp [ih true]
    · rw [if_neg hx]
      unfold noBadWs
      rw [if_neg hx]
      exact ih false

theorem collapseWsAux_of_noBadWs : ∀ (l : List Char) (b : Bool),
    noBadWs b l = true → collapseWsAux b l = l := by
  intro l
  induction l with
  | nil => intro b _; rfl
  | cons x xs ih =>
    intro b h
    unfold noBadWs at h
    unfold collapseWsAux
    by_cases hx : isSpaceJS x
    · rw [if_pos hx] at h
      simp only [Bool.and_eq_true, Bool.not_eq_true', beq_iff_eq] at h
      obtain ⟨⟨hb, hsp⟩, hrest⟩ := h
      subst hb
      rw [if_pos hx, if_neg (by simp), ih true hrest, hsp]
    · rw [if_neg hx] at h
      rw [if_neg hx, ih false h]

theorem getLast?_cons_ne_nil {x : Char} {l : List Char} (h : l ≠ []) :
    (x :: l).getLast? = l.getLast? := by
  obtain ⟨y, ys, rfl⟩ := List.exists_cons_of_ne_nil h
  exact List.getLast?_cons_cons

theorem getLast?_collapseWsAux :
    ∀ (l : List Char) (b : Bool) (c : Char), l.getLast? = some c →
      isSpaceJS c = false → (collapseWsAux b l).getLast? = some c := by
  intro l
  induction l with
  | nil => intro b c h _; simp at h
  | cons x xs ih =>
    intro b c h hc
    cases hxs : xs with
    | nil =>
      subst hxs
      simp only [List.getLast?_singleton, Option.some.injEq] at h
      subst h
      unfold collapseWsAux
      rw [if_neg (by simp [hc])]
      rfl
    | cons y ys =>
      subst hxs
      rw [List.getLast?_cons_cons] at h
      have htail : ∀ b', (collapseWsAux b' (y :: ys)).getLast? = some c :=
        fun b' => ih b' c h hc
      have hnil : ∀ b', collapseWsAux b' (y :: ys) ≠ [] := by
        intro b' he
        have := htail b'
        rw [he] at this
        simp at this
      unfold collapseWsAux
      by_cases hx : isSpaceJS x
      · rw [if_pos hx]
        cases b with
        | true => rw [if_pos rfl]; exact htail true
        | false =>
          rw [if_neg (by simp)]
          rw [getLast?_cons_ne_nil (hnil true)]
          exact htail true
      · rw [if_neg hx]
        rw [getLast?_cons_ne_nil (hnil false)]
        exact htail false

theorem dropWhile_eq_self {p : Char → Bool} {l : List Char}
    (h : ∀ c, l.head? = some c → p c = false) : l.dropWhile p = l := by
  cases l with
  | nil => rfl
  | cons x xs =>
    exact List.dropWhile_cons_of_neg (by simp [h x rfl])

theorem trimChars_eq_self {l : List Char}
    (h1 : ∀ c, l.head? = some c → isSpaceJS c = false)
    (h2 : ∀ c, l.getLast? = some c → isSpaceJS c = false) :
    trimChars l = l := by
  unfold trimChars
  rw [dropWhile_eq_self h1]
  rw [dropWhile_eq_self (by
    intro c hc
    rw [List.head?_reverse] at hc
    exact h2 c hc)]
  exact List.reverse_reverse l

theorem head?_trimChars_not {l : List Char} :
    ∀ c, (trimChars l).head? = some c → isSpaceJS c = false := by
  intro c hc
  unfold trimChars at hc
  rw [List.head?_reverse] at hc
  set d1 := l.dropWhile isSpaceJS with hd1
  set d2 := d1.reverse.dropWhile isSpaceJS with hd2
  have hsuf : d2 <:+ d1.reverse := List.dropWhile_suffix _
  obtain ⟨t, ht⟩ := hsuf
  have hc3 : d1.reverse.getLast? = some c := by
    rw [← ht, List.getLast?_append, hc]
    rfl
  rw [List.getLast?_reverse] at hc3
  have hnot := List.head?_dropWhile_not isSpaceJS l
  rw [← hd1, hc3] at hnot
  exact hnot

theorem getLast?_trimChars_not {l : List Char} :
    ∀ c, (trimChars l).getLast? = some c → isSpaceJS c = false := by
  intro c hc
  unfold trimChars at hc
  rw [List.getLast?_reverse] at hc
  have := List.head?_dropWhile_not isSpaceJS (l.dropWhile isSpaceJS).reverse
  rw [hc] at this
  exact this

theorem noBadWs_map_toLowerJS : ∀ (l : List Char) (b : Bool),
    noBadWs b l = true → noBadWs b (l.map toLowerJS) = true := by
  intro l
  induction l with
  | nil => intro b _; rfl
  | cons x xs ih =>
    intro b h
    unfold noBadWs at h
    rw [List.map_cons]
    unfold noBadWs
    by_cases hx : isSpaceJS x
    · rw [if_pos hx] at h
      simp only [Bool.and_eq_true, Bool.not_eq_true', beq_iff_eq] at h
      obtain ⟨⟨hb, hsp⟩, hrest⟩ := h
      subst hb
      subst hsp
      rw [if_pos (by decide : isSpaceJS (toLowerJS ' ') = true)]
      simp [ih true hrest, (by decide : toLowerJS ' ' = ' ')]
    · rw [if_neg hx] at h
      rw [if_neg (by rw [isSpaceJS_toLowerJS]; exact hx)]
      exact ih false h

theorem head?_collapseWs_not {t : List Char}
    (h : ∀ d, t.head? = some d → isSpaceJS d = false) :
    ∀ c, (collapseWsAux false t).head? = some c → isSpaceJS c = false := by
  intro c hc
  cases t with
  | nil => simp [collapseWsAux] at hc
  | cons x xs =>
    have hx : isSpaceJS x = false := h x rfl
    unfold collapseWsAux at hc
    rw [if_neg (by simp [hx])] at hc
    rw [List.head?_cons, Option.some.injEq] at hc
    subst hc
    exact hx

/-- C5 (amended): preprocessing is idempotent on inputs all of whose
characters lie in the kept set (word characters, whitespace, and the kept
punctuation) — for such strings, normalizing already-normalized text yields
the identical string.  (For strings containing dropped characters it can
differ; see the counterexample.) -/
theorem preprocess_idem_on_kept (s : String)
    (h : ∀ c ∈ s.data, isKept c = true) :
    preprocessText (preprocessText s) = preprocessText s := by
  unfold preprocessText
  congr 1
  show preprocessChars (preprocessChars s.data) = preprocessChars s.data
  have hK_t : ∀ c ∈ trimChars s.data, isKept c = true :=
    fun c hc => h c (mem_trimChars hc)
  have hK_u : ∀ c ∈ collapseWs (trimChars s.data), isKept c = true := by
    intro c hc
    rcases mem_collapseWsAux (trimChars s.data) false hc with rfl | hc'
    · decide
    · exact hK_t c hc'
  have hrem : removeSpecial (collapseWs (trimChars s.data)) =
      collapseWs (trimChars s.data) := List.filter_eq_self.2 hK_u
  have hpass1 : preprocessChars s.data =
      lowerChars (collapseWs (trimChars s.data)) := by
    unfold preprocessChars
    rw [hrem]
  rw [hpass1]
  obtain ⟨u, hu⟩ : ∃ u, collapseWs (trimChars s.data) = u := ⟨_, rfl⟩
  rw [hu] at hK_u ⊢
  have hhead_u : ∀ c, u.head? = some c → isSpaceJS c = false := by
    intro c hc
    exact head?_collapseWs_not head?_trimChars_not c (hu ▸ hc)
  have hlast_u : ∀ c, u.getLast? = some c → isSpaceJS c = false := by
    intro c hc
    cases hgl : (trimChars s.data).getLast? with
    | none =>
      rw [List.getLast?_eq_none_iff] at hgl
      rw [← hu, hgl] at hc
      simp [collapseWs, collapseWsAux] at hc
    | some d =>
      have hd : isSpaceJS d = false := getLast?_trimChars_not d hgl
      have hgu := getLast?_collapseWsAux (trimChars s.data) false d hgl hd
      rw [show collapseWsAux false (trimChars s.data) = u from hu] at hgu
      rw [hgu, Option.some.injEq] at hc
      subst hc
      exact hd
  have hnbw_u : noBadWs false u = true := by
    have hn := noBadWs_collapseWsAux (trimChars s.data) false
    rwa [show collapseWsAux false (trimChars s.data) = u from hu] at hn
  have hheadv : ∀ c, (lowerChars u).head? = some c → isSpaceJS c = false := by
    intro c hc
    unfold lowerChars at hc
    rw [List.head?_map] at hc
    obtain ⟨c', hc', rfl⟩ := Option.map_eq_some'.1 hc
    rw [isSpaceJS_toLowerJS]
    exact hhead_u c' hc'
  have hlastv : ∀ c, (lowerChars u).getLast? = some c →
      isSpaceJS c = false := by
    intro c hc
    unfold lowerChars at hc
    rw [List.getLast?_map] at hc
    obtain ⟨c', hc', rfl⟩ := Option.map_eq_some'.1 hc
    rw [isSpaceJS_toLowerJS]
    exact hlast_u c' hc'
  have htrim2 : trimChars (lowerChars u) = lowerChars u :=
    trimChars_eq_self hheadv hlastv
  have hnbwv : noBadWs false (lowerChars u) = true :=
    noBadWs_map_toLowerJS u false hnbw_u
  have hcoll2 : collapseWs (lowerChars u) = lowerChars u :=
    collapseWsAux_of_noBadWs _ false hnbwv
  have hKv : ∀ c ∈ lowerChars u, isKept c = true := by
    intro c hc
    unfold lowerChars at hc
    obtain ⟨c', hc', rfl⟩ := List.mem_map.1 hc
    exact isKept_toLowerJS (hK_u c' hc')
  have hrem2 : removeSpecial (lowerChars u) = lowerChars u :=
    List.filter_eq_self.2 hKv
  have hlow2 : lowerChars (lowerChars u) = lowerChars u := by
    unfold lowerChars
    rw [List.map_map]
    exact List.map_congr_left fun a _ => toLowerJS_toLowerJS a
  unfold preprocessChars
  rw [htrim2, hcoll2, hrem2, hlow2]

theorem preprocess_idem_on_kept_witness :
    preprocessText (preprocessText "My essay, draft 2: Hello!") =
      preprocessText "My essay, draft 2: Hello!" :=
  preprocess_idem_on_kept "My essay, draft 2: Hello!" (by decide)

/-- C5 (counterexample): dropping the disallowed character in the middle of
the string merges the two surrounding spaces, so one normalization pass
yields a double space which a second pass collapses: normalization is not
idempotent. -/
theorem preprocess_not_idempotent :
    preprocessText "a @ b" = "a  b" ∧
    preprocessText (preprocessText "a @ b") = "a b" ∧
    preprocessText (preprocessText "a @ b") ≠ preprocessText "a @ b" := by
  decide


end IvyLine
